import Mathlib

/-!
A verification development for the Imaginebuild client (TypeScript sources
under `src/`).  The relevant program logic — base64/data-URI parsing, the
concept-synthesis field defaulting, response image extraction, the capture
alignment gate, the pipeline orchestrator's discovery/synthesis state, the
voice-session playback scheduler, and the PCM base64 codec — is shallowly
embedded below as executable Lean definitions translated from the source,
and the spec's testable properties are settled as theorems about those
definitions.

Conventions used throughout:
* JavaScript values parsed from JSON are modelled by the inductive `Json`
  (numbers as `Int`; the fractional part of a JS number plays no role in
  any property below).
* JS `null`/`undefined` is modelled with `Option`; JS truthiness is made
  explicit (`Json.truthy`, `strOptTruthy`, `strOr`).
* A JS exception (e.g. a `TypeError` from dereferencing `null`) is
  modelled with `Except`.
* Asynchronous handlers are modelled as atomic state transitions
  (state × event → state × effects); "the code performs a network call"
  is modelled by an explicit effect value, so "aborts before any network
  request" becomes "the step emits no effect".
-/

namespace ImagineBuild

/-! ## JSON values (results of `JSON.parse`) -/

/-- A parsed JSON value, as produced by JavaScript's `JSON.parse`.
Numbers are modelled as integers; no property below depends on the
fractional part of a number. -/
inductive Json where
  | null
  | bool (b : Bool)
  | num (n : Int)
  | str (s : String)
  | arr (elems : List Json)
  | obj (fields : List (String × Json))

/-- JavaScript truthiness of a parsed JSON value: `null`, `false`, `0`
and the empty string are falsy; every array and object is truthy. -/
def Json.truthy : Json → Bool
  | .null => false
  | .bool b => b
  | .num n => n != 0
  | .str s => s != ""
  | .arr _ => true
  | .obj _ => true

/-- Last-wins lookup of a key in an object's field list, matching
`JSON.parse`'s treatment of duplicate keys. -/
def lookupLast (fields : List (String × Json)) (k : String) : Option Json :=
  match fields with
  | [] => none
  | (k2, v) :: rest =>
    match lookupLast rest k with
    | some r => some r
    | none => if k2 == k then some v else none

/-- JavaScript property access `j.k` on a parsed JSON value: a lookup on
objects, `undefined` (here `none`) on every other value. -/
def Json.get (j : Json) (k : String) : Option Json :=
  match j with
  | .obj fields => lookupLast fields k
  | _ => none

/-- The JavaScript expression `x || d` for a possibly-undefined value `x`:
the value itself when present and truthy, otherwise the default. -/
def jsOr (x : Option Json) (dflt : Json) : Json :=
  match x with
  | some v => if v.truthy then v else dflt
  | none => dflt

/-! ## Concept synthesis field defaulting (`generateDesignConcept`,
`src/gemini.ts` lines 177-189) -/

/-- The `finalizedDesignData` object assembled by `generateDesignConcept`:
one field per schema key, each defaulted with `||`. -/
structure FinalizedDesign where
  name : Json
  description : Json
  floorPlanJson : Json
  costs : Json

/-- The parsed synthesis response: `JSON.parse(conceptResponse.text || "{}")`
with the `catch` substituting `{}`.  `none` stands for an unparseable (or
absent) response text, which the code replaces by the empty object. -/
def designDataOf : Option Json → Json
  | none => Json.obj []
  | some j => j

/-- The fixed default `floorPlanJson` object (`src/gemini.ts` line 187). -/
def defaultFloorPlan : Json :=
  Json.obj [("rooms", Json.arr []), ("totalArea", Json.str "N/A"),
    ("analysis", Json.str "")]

/-- The fixed default `costs` object (`src/gemini.ts` line 188). -/
def defaultCosts : Json :=
  Json.obj [("estimatedTotal", Json.num 0), ("breakdown", Json.arr [])]

/-- Field-by-field defaulting of the parsed synthesis response
(`src/gemini.ts` lines 184-189): each top-level field is kept when present
and truthy, and replaced by its fixed default otherwise. -/
def finalizeDesignData (designData : Json) : FinalizedDesign :=
  { name := jsOr (designData.get "name") (Json.str "Real-World Synthesis Design")
    description := jsOr (designData.get "description")
      (Json.str "Synthesized simulation based on real-world architectural data.")
    floorPlanJson := jsOr (designData.get "floorPlanJson") defaultFloorPlan
    costs := jsOr (designData.get "costs") defaultCosts }

/-- The design produced from an unparseable response: every field its
default. -/
def defaultFinalizedDesign : FinalizedDesign :=
  { name := Json.str "Real-World Synthesis Design"
    description :=
      Json.str "Synthesized simulation based on real-world architectural data."
    floorPlanJson := defaultFloorPlan
    costs := defaultCosts }

/-- Is this JSON value a non-empty string? -/
def Json.isNonEmptyStr : Json → Bool
  | .str s => s != ""
  | _ => false

/-- Is this JSON value a string? -/
def Json.isStr : Json → Bool
  | .str _ => true
  | _ => false

/-- Does this value have a `rooms` field holding an array and a `totalArea`
field holding a string (the claim's requirement on `floorPlanJson`)? -/
def hasRoomsAndArea (j : Json) : Bool :=
  (match j.get "rooms" with
   | some (Json.arr _) => true
   | _ => false) &&
  (match j.get "totalArea" with
   | some (Json.str _) => true
   | _ => false)

/-- Does this value have a numeric `estimatedTotal` and an array
`breakdown` (the claim's requirement on `costs`)? -/
def costsShapeOk (j : Json) : Bool :=
  (match j.get "estimatedTotal" with
   | some (Json.num _) => true
   | _ => false) &&
  (match j.get "breakdown" with
   | some (Json.arr _) => true
   | _ => false)

/-- The shape the claim asserts of every design returned by concept
synthesis: non-empty string `name` and `description`, a `floorPlanJson`
with a `rooms` array and `totalArea` string, and a `costs` with numeric
`estimatedTotal` and `breakdown` array. -/
def designWellFormed (d : FinalizedDesign) : Bool :=
  d.name.isNonEmptyStr && d.description.isNonEmptyStr &&
    hasRoomsAndArea d.floorPlanJson && costsShapeOk d.costs

/-- One top-level field of the parsed response is compatible with the
declared schema when it is absent, falsy, or satisfies the schema's shape
predicate for that field. -/
def optFieldCompat (x : Option Json) (P : Json → Bool) : Bool :=
  match x with
  | none => true
  | some v => !v.truthy || P v

/-- The parsed response's truthy top-level fields all have the shapes the
response schema declares (strings for `name`/`description`, a rooms/area
object for `floorPlanJson`, a totals object for `costs`). -/
def schemaCompatible (j : Json) : Bool :=
  optFieldCompat (j.get "name") Json.isStr &&
  optFieldCompat (j.get "description") Json.isStr &&
  optFieldCompat (j.get "floorPlanJson") hasRoomsAndArea &&
  optFieldCompat (j.get "costs") costsShapeOk

/-- A truthy string is a non-empty string. -/
lemma isNonEmptyStr_of_truthy_isStr (v : Json) (ht : v.truthy = true)
    (hs : v.isStr = true) : v.isNonEmptyStr = true := by
  cases v <;> simp_all [Json.truthy, Json.isStr, Json.isNonEmptyStr]

/-- `x || dflt` satisfies `Q` whenever the default does, and any truthy
value passing the compatibility predicate `P` also passes `Q`. -/
lemma jsOr_spec (x : Option Json) (dflt : Json) (P Q : Json → Bool)
    (hd : Q dflt = true) (himp : ∀ v, v.truthy = true → P v = true → Q v = true)
    (hc : optFieldCompat x P = true) : Q (jsOr x dflt) = true := by
  cases x with
  | none => simpa [jsOr] using hd
  | some v =>
    simp only [optFieldCompat, Bool.or_eq_true, Bool.not_eq_true'] at hc
    by_cases ht : v.truthy = true
    · have hp : P v = true := by
        rcases hc with h | h
        · rw [h] at ht; cases ht
        · exact h
      simpa [jsOr, ht] using himp v ht hp
    · have ht2 : v.truthy = false := by
        cases hv : v.truthy
        · rfl
        · exact absurd hv ht
      simpa [jsOr, ht2] using hd

/-! ## Base64 image input parsing (`parseBase64`, `src/gemini.ts`
lines 13-29) -/

/-- Characters matched by JavaScript's regex class `\s` (the whitespace
stripped by `base64String.replace(/\s/g, '')`). -/
def jsWhitespace (c : Char) : Bool :=
  c ∈ [' ', '\t', '\n', '\r', '\u000b', '\u000c', '\u00a0', '\u1680',
    '\u2000', '\u2001', '\u2002', '\u2003', '\u2004', '\u2005', '\u2006',
    '\u2007', '\u2008', '\u2009', '\u200a', '\u2028', '\u2029', '\u202f',
    '\u205f', '\u3000', '\ufeff']

/-- The input with all whitespace stripped (`cleanString` in the source),
as a character list. -/
def cleanOf (s : String) : List Char :=
  s.data.filter (fun c => !jsWhitespace c)

/-- ASCII alphanumeric: the regex class `[a-zA-Z0-9]`. -/
def isAlnumAscii (c : Char) : Bool :=
  (('a' ≤ c && c ≤ 'z') || ('A' ≤ c && c ≤ 'Z') || ('0' ≤ c && c ≤ '9'))

/-- The regex class `[a-zA-Z0-9-.+]` for the MIME subtype. -/
def isMimeSubChar (c : Char) : Bool :=
  isAlnumAscii c || c == '-' || c == '.' || c == '+'

/-- The anchored match
`/^data:([a-zA-Z0-9]+\/[a-zA-Z0-9-.+]+);base64,(.+)$/` on the
whitespace-stripped input, returning the two capture groups (MIME type,
payload).  Both character classes exclude `/` and `;`, so the greedy
maximal runs used here coincide with the regex's backtracking search; the
input has had every `\s` character (including all line terminators)
removed, so `(.+)` accepts any non-empty remainder. -/
def matchDataUriChars (cs : List Char) : Option (List Char × List Char) :=
  match cs with
  | 'd' :: 'a' :: 't' :: 'a' :: ':' :: rest =>
    let g1 := rest.takeWhile isAlnumAscii
    let r1 := rest.dropWhile isAlnumAscii
    if g1.isEmpty then none
    else
      match r1 with
      | '/' :: r2 =>
        let g2 := r2.takeWhile isMimeSubChar
        let r3 := r2.dropWhile isMimeSubChar
        if g2.isEmpty then none
        else
          match r3 with
          | ';' :: 'b' :: 'a' :: 's' :: 'e' :: '6' :: '4' :: ',' :: payload =>
            if payload.isEmpty then none
            else some (g1 ++ '/' :: g2, payload)
          | _ => none
      | _ => none
  | _ => none

/-- The unanchored search `parts[0].match(/data:([^;]+)/)`: find the first
occurrence of `data:` followed by at least one non-`;` character and
return the (greedy, maximal) capture.  Advancing one character at a time
on failure mirrors the regex engine's scan. -/
def dataHeaderCapture : List Char → Option (List Char)
  | [] => none
  | c :: tl =>
    if (c :: tl).take 5 = ['d', 'a', 't', 'a', ':'] then
      let cap := ((c :: tl).drop 5).takeWhile (fun x => x ≠ ';')
      if cap.isEmpty then dataHeaderCapture tl else some cap
    else dataHeaderCapture tl

/-- Result of `parseBase64`: a MIME type and a data payload. -/
structure B64Parse where
  mimeType : String
  data : String
deriving DecidableEq

/-- Everything after the first comma of the stripped input when a comma is
present (`parts.slice(1).join(',')`), the whole stripped input otherwise:
the data payload `parseBase64` produces when the full data-URI regex does
not match. -/
def jsAfterComma (cs : List Char) : List Char :=
  if cs.contains ',' then (cs.dropWhile (fun c => c ≠ ',')).drop 1 else cs

/-- `parseBase64` (`src/gemini.ts` lines 13-29): strip whitespace, try the
full data-URI regex; otherwise default the MIME type to `image/jpeg`,
replace it by the capture of `/data:([^;]+)/` on the part before the first
comma when that matches, and take everything after the first comma (or the
whole string) as the payload. -/
def parseBase64 (base64String : String) : B64Parse :=
  let clean := cleanOf base64String
  match matchDataUriChars clean with
  | some (m, d) => ⟨String.mk m, String.mk d⟩
  | none =>
    if clean.contains ',' then
      let headPart := clean.takeWhile (fun c => c ≠ ',')
      let mt :=
        match dataHeaderCapture headPart with
        | some cap => String.mk cap
        | none => "image/jpeg"
      ⟨mt, String.mk ((clean.dropWhile (fun c => c ≠ ',')).drop 1)⟩
    else ⟨"image/jpeg", String.mk clean⟩

/-- A successful header capture is non-empty (the capture group is
`[^;]+`). -/
lemma dataHeaderCapture_ne_nil (cs cap : List Char)
    (h : dataHeaderCapture cs = some cap) : cap ≠ [] := by
  induction cs with
  | nil => simp [dataHeaderCapture] at h
  | cons c tl ih =>
    rw [dataHeaderCapture] at h
    by_cases hp : (c :: tl).take 5 = ['d', 'a', 't', 'a', ':']
    · rw [if_pos hp] at h
      by_cases he : (((c :: tl).drop 5).takeWhile (fun x => x ≠ ';')).isEmpty
      · rw [if_pos he] at h
        exact ih h
      · rw [if_neg he] at h
        cases h
        simpa [List.isEmpty_iff] using he
    · rw [if_neg hp] at h
      exact ih h

/-! ## Response image extraction and the visualization fallback
(`extractImage`, `src/gemini.ts` lines 5-10 and 215-227) -/

/-- The `inlineData` member of a response part. -/
structure InlineData where
  data : String
deriving DecidableEq

/-- One part of a response candidate's content; only `inlineData` is
inspected by `extractImage`. -/
structure GenPart where
  inlineData : Option InlineData
deriving DecidableEq

/-- A candidate's `content`, whose `parts` array may be absent. -/
structure GenContent where
  parts : Option (List GenPart)
deriving DecidableEq

/-- One response candidate; its `content` may be absent. -/
structure GenCandidate where
  content : Option GenContent
deriving DecidableEq

/-- A generation response; its `candidates` array may be absent. -/
structure GenResponse where
  candidates : Option (List GenCandidate)
deriving DecidableEq

/-- A JavaScript runtime exception. -/
inductive JsErr where
  | typeError
deriving DecidableEq

/-- `extractImage` (`src/gemini.ts` lines 5-10) applied to a response that
may be `null` (the value the synthesis code passes after a failed image
call).  On `null` the very first access `response.candidates` throws a
`TypeError`; otherwise the optional chain yields `null` when no inline
image part exists, and a `data:image/png;base64,` URI when one does. -/
def extractImage (response : Option GenResponse) : Except JsErr (Option String) :=
  match response with
  | none => .error .typeError
  | some r =>
    let candidates := r.candidates.getD []
    match candidates.head? with
    | none => .ok none
    | some c0 =>
      match c0.content with
      | none => .ok none
      | some content =>
        match content.parts with
        | none => .ok none
        | some parts =>
          match parts.find? (fun p => p.inlineData.isSome) with
          | none => .ok none
          | some p =>
            match p.inlineData with
            | some idata => .ok (some ("data:image/png;base64," ++ idata.data))
            | none => .ok none

/-- The JavaScript expression `x || d` for a string-or-null value. -/
def strOr (x : Option String) (d : String) : String :=
  match x with
  | some s => if s == "" then d else s
  | none => d

/-- The three visualization URLs of a design. -/
structure Visualizations where
  exterior : String
  interior : String
  plan : String
deriving DecidableEq

/-- The fixed exterior placeholder URL (`src/gemini.ts` line 223). -/
def exteriorPlaceholder : String :=
  "https://images.unsplash.com/photo-1600585154340-be6161a56a0c"

/-- The fixed interior placeholder URL (`src/gemini.ts` line 224). -/
def interiorPlaceholder : String :=
  "https://images.unsplash.com/photo-1600210492486-724fe5c67fb0"

/-- The fixed plan placeholder URL (`src/gemini.ts` line 225). -/
def planPlaceholder : String :=
  "https://images.unsplash.com/photo-1503387762-592deb58ef4e"

/-- The visualization assembly at the end of `generateDesignConcept`
(`src/gemini.ts` lines 222-226), applied to the results of the two
parallel image calls after `Promise.all(...).catch(() => [null, null])`:
`extractImage(extRes) || exteriorPlaceholder`, the fixed interior URL, and
`extractImage(planRes) || planPlaceholder`, evaluated in source order so
an exception in either extraction rejects the whole call. -/
def assembleVisualizations (extRes planRes : Option GenResponse) :
    Except JsErr Visualizations := do
  let e ← extractImage extRes
  let p ← extractImage planRes
  return { exterior := strOr e exteriorPlaceholder
           interior := interiorPlaceholder
           plan := strOr p planPlaceholder }

/-! ## Request shaping prefixes (the synchronous code of each operation up
to its first network call) -/

/-- The error thrown by `analyzeSite`'s image-data validation
(`throw new Error("Invalid image data")`, `src/gemini.ts` line 35). -/
inductive GenError where
  | invalidImageData
deriving DecidableEq

/-- The inline image payload an operation sends to the AI service. -/
structure ShapedImageRequest where
  mimeType : String
  data : String
deriving DecidableEq

/-- The synchronous prefix of `analyzeSite` (`src/gemini.ts` lines 32-36)
up to its `generateContent` call: parse the image, throw on an empty
payload, otherwise issue the request with the parsed payload.  `.ok`
means the network request is issued. -/
def analyzeSiteRequest (base64Image : String) : Except GenError ShapedImageRequest :=
  let p := parseBase64 base64Image
  if p.data = "" then .error .invalidImageData
  else .ok ⟨p.mimeType, p.data⟩

/-- The synchronous prefix of `promptEditImage` (`src/gemini.ts` lines
99-111) up to its `generateContent` call: parse the image and issue the
request; the source performs no validation of the parsed payload. -/
def promptEditImageRequest (base64Image : String) : Except GenError ShapedImageRequest :=
  let p := parseBase64 base64Image
  .ok ⟨p.mimeType, p.data⟩

/-- The synchronous prefix of `generateDesignConcept` (`src/gemini.ts`
lines 121-131) up to its first `generateContent` call: parse the image
and issue the synthesis request; the source performs no validation of the
parsed payload. -/
def generateDesignConceptRequest (base64Image : String) :
    Except GenError ShapedImageRequest :=
  let p := parseBase64 base64Image
  .ok ⟨p.mimeType, p.data⟩

/-- A string built from a non-empty character list is a non-empty
string. -/
lemma stringMk_ne_empty (cs : List Char) (h : cs ≠ []) : String.mk cs ≠ "" := by
  intro he
  apply h
  have h2 : (String.mk cs).data = ("" : String).data := congrArg String.data he
  simpa using h2

/-- `parseBase64` on an input whose stripped form does not match the full
data-URI regex reduces to the fallback branch of the source. -/
lemma parseBase64_eq_fallback (s : String)
    (h : matchDataUriChars (cleanOf s) = none) :
    parseBase64 s =
      if (cleanOf s).contains ',' then
        ⟨(match dataHeaderCapture ((cleanOf s).takeWhile (fun c => c ≠ ',')) with
          | some cap => String.mk cap
          | none => "image/jpeg"),
         String.mk (((cleanOf s).dropWhile (fun c => c ≠ ',')).drop 1)⟩
      else ⟨"image/jpeg", String.mk (cleanOf s)⟩ := by
  simp only [parseBase64, h]

/-! ## Claim theorems for the request shaper -/

/-- C1 (counterexample).  The claim quantifies over every upstream
response, but the source defaults only falsy top-level fields: a response
whose text parses to `{"name": 42}` keeps the truthy number `42` as the
design's name, which is not a non-empty string, so the returned design
violates the claimed shape. -/
theorem C1_counterexample :
    designWellFormed
      (finalizeDesignData (designDataOf (some (Json.obj [("name", Json.num 42)]))))
      = false := by
  rfl

/-- C1 (amended).  For every upstream synthesis response whose parsed
top-level fields, where present and truthy, have the types the declared
response schema prescribes, `generateDesignConcept`'s finalized design has
non-empty string `name` and `description`, a `floorPlanJson` with a
`rooms` array and a `totalArea` string, and a `costs` with numeric
`estimatedTotal` and a `breakdown` array; every missing or falsy field is
replaced by its fixed default, and an unparseable response yields exactly
the four defaults. -/
theorem C1_synthesis_defaults (pr : Option Json)
    (h : schemaCompatible (designDataOf pr) = true) :
    designWellFormed (finalizeDesignData (designDataOf pr)) = true ∧
      finalizeDesignData (designDataOf none) = defaultFinalizedDesign := by
  constructor
  · unfold schemaCompatible at h
    simp only [Bool.and_eq_true] at h
    obtain ⟨⟨⟨h1, h2⟩, h3⟩, h4⟩ := h
    unfold designWellFormed finalizeDesignData
    simp only [Bool.and_eq_true]
    refine ⟨⟨⟨?_, ?_⟩, ?_⟩, ?_⟩
    · exact jsOr_spec _ _ Json.isStr Json.isNonEmptyStr (by rfl)
        isNonEmptyStr_of_truthy_isStr h1
    · exact jsOr_spec _ _ Json.isStr Json.isNonEmptyStr (by rfl)
        isNonEmptyStr_of_truthy_isStr h2
    · exact jsOr_spec _ _ hasRoomsAndArea hasRoomsAndArea (by rfl)
        (fun _ _ hv => hv) h3
    · exact jsOr_spec _ _ costsShapeOk costsShapeOk (by rfl)
        (fun _ _ hv => hv) h4
  · rfl

/-- C1 (witness): the amended theorem applied to an unparseable response,
whose parsed form `{}` is trivially schema-compatible. -/
theorem C1_synthesis_defaults_witness :
    designWellFormed (finalizeDesignData (designDataOf none)) = true ∧
      finalizeDesignData (designDataOf none) = defaultFinalizedDesign :=
  C1_synthesis_defaults none (by rfl)

/-- C2 (code bug).  When both parallel image-generation calls fail, the
`catch` yields `extRes = planRes = null`, and `extractImage(null)`
dereferences `null.candidates`, throwing a `TypeError`: the synthesis call
rejects instead of resolving with the placeholder visualization URLs the
spec describes. -/
theorem C2_both_calls_failed_rejects :
    assembleVisualizations none none = Except.error JsErr.typeError := rfl

/-- C3 (counterexample).  The claim asserts that every image-taking
operation validates the parsed payload before any network request, but
only `analyzeSite` does: on an empty input (whose parsed payload is
empty), `promptEditImage` and `generateDesignConcept` both proceed to
issue their network request with the empty payload. -/
theorem C3_counterexample :
    (parseBase64 "").data = "" ∧
      promptEditImageRequest "" = Except.ok ⟨"image/jpeg", ""⟩ ∧
      generateDesignConceptRequest "" = Except.ok ⟨"image/jpeg", ""⟩ :=
  ⟨rfl, rfl, rfl⟩

/-- C3 (amended).  On image input whose parsed data payload is empty,
`analyzeSite` raises its synchronous "Invalid image data" error before
any network request, while `promptEditImage` and `generateDesignConcept`
perform no such validation and issue their network request with the empty
payload. -/
theorem C3_empty_data_validation (s : String) (h : (parseBase64 s).data = "") :
    analyzeSiteRequest s = Except.error GenError.invalidImageData ∧
      promptEditImageRequest s = Except.ok ⟨(parseBase64 s).mimeType, ""⟩ ∧
      generateDesignConceptRequest s = Except.ok ⟨(parseBase64 s).mimeType, ""⟩ := by
  refine ⟨?_, ?_, ?_⟩ <;>
    simp [analyzeSiteRequest, promptEditImageRequest,
      generateDesignConceptRequest, h]

/-- C3 (witness): the amended theorem at the concrete empty input. -/
theorem C3_empty_data_validation_witness :
    analyzeSiteRequest "" = Except.error GenError.invalidImageData :=
  (C3_empty_data_validation "" (by rfl)).1

/-- C7 (counterexample).  The claim promises a non-empty data payload for
every input lacking a recognizable data-URI header, but the empty input
has no header and parses to an empty payload. -/
theorem C7_counterexample :
    matchDataUriChars (cleanOf "") = none ∧
      (parseBase64 "").mimeType = "image/jpeg" ∧ (parseBase64 "").data = "" :=
  ⟨rfl, rfl, rfl⟩

/-- C7 (amended).  For every input whose whitespace-stripped form does not
match the data-URI regex, `parseBase64` returns a non-empty MIME type
(`image/jpeg` unless a `data:<mime>;` header precedes the first comma),
and the data payload is the stripped input — everything after its first
comma when one is present — which is non-empty whenever that remainder is
non-empty. -/
theorem C7_parse_header_free (s : String)
    (h : matchDataUriChars (cleanOf s) = none) :
    (parseBase64 s).mimeType ≠ "" ∧
      (parseBase64 s).data = String.mk (jsAfterComma (cleanOf s)) ∧
      (jsAfterComma (cleanOf s) ≠ [] → (parseBase64 s).data ≠ "") := by
  rw [parseBase64_eq_fallback s h]
  by_cases hc : (cleanOf s).contains ','
  · have hm : ',' ∈ cleanOf s := by simpa using hc
    simp only [hc, if_pos]
    refine ⟨?_, ?_, ?_⟩
    · cases hcap : dataHeaderCapture ((cleanOf s).takeWhile (fun c => c ≠ ',')) with
      | none => simp [hcap]
      | some cap =>
        simp only [hcap]
        exact stringMk_ne_empty cap (dataHeaderCapture_ne_nil _ cap hcap)
    · simp [jsAfterComma, hm]
    · intro hne
      unfold jsAfterComma at hne
      rw [if_pos hc] at hne
      exact stringMk_ne_empty _ hne
  · have hm : ¬ (',' ∈ cleanOf s) := by simpa using hc
    simp only [hc, if_neg, Bool.false_eq_true, not_false_iff]
    refine ⟨by simp, ?_, ?_⟩
    · simp [jsAfterComma, hm]
    · intro hne
      unfold jsAfterComma at hne
      rw [if_neg hc] at hne
      exact stringMk_ne_empty _ hne

/-- C7 (witness): the amended theorem at the concrete header-free input
`"abc"`, whose payload is the non-empty string itself. -/
theorem C7_parse_header_free_witness :
    (parseBase64 "abc").mimeType ≠ "" ∧
      (parseBase64 "abc").data = String.mk (jsAfterComma (cleanOf "abc")) ∧
      (jsAfterComma (cleanOf "abc") ≠ [] → (parseBase64 "abc").data ≠ "") :=
  C7_parse_header_free "abc" (by rfl)

/-! ## Capture flow (`CameraCapture`, `src/unnamed/part_002`
lines 111-239) -/

/-- The two capture phases of `CameraCapture`. -/
inductive CapturePhase where
  | aligning
  | ready
deriving DecidableEq

/-- The `CameraCapture` component state relevant to the alignment gate:
`phase`, `syncProgress` and the camera-error flag. -/
structure CaptureState where
  phase : CapturePhase
  syncProgress : Nat
  error : Bool
deriving DecidableEq

/-- The initial `CameraCapture` state: `phase = 'aligning'`,
`syncProgress = 0`, no error. -/
def initCaptureState : CaptureState := ⟨.aligning, 0, false⟩

/-- One firing of the 500ms sync interval (`src/unnamed/part_002` lines
162-167): at or above 100 the value is set to exactly 100, otherwise it
grows by `r = Math.floor(Math.random() * 15)`, a number in `0..14`. -/
def syncTick (prev r : Nat) : Nat :=
  if 100 ≤ prev then 100 else prev + r

/-- The user-visible events of the capture flow. -/
inductive CaptureEvent where
  | tick (r : Nat)
  | setReady
  | captureFrame
  | realign
  | camError
deriving DecidableEq

/-- The random increment of a tick is `Math.floor(Math.random() * 15)`,
hence at most 14. -/
def captureEventValid : CaptureEvent → Bool
  | .tick r => decide (r ≤ 14)
  | _ => true

/-- Which events the component can fire in a state: the sync interval
runs only while `phase === 'aligning' && !error`; the `Set Point` button
is rendered only in that situation and is disabled while
`syncProgress < 100`; the shutter and the realign button are rendered
only in the `ready` phase without error. -/
def captureEnabled (s : CaptureState) : CaptureEvent → Bool
  | .tick _ => decide (s.phase = .aligning) && !s.error
  | .setReady =>
    decide (s.phase = .aligning) && !s.error && decide (100 ≤ s.syncProgress)
  | .captureFrame => decide (s.phase = .ready) && !s.error
  | .realign => decide (s.phase = .ready) && !s.error
  | .camError => !s.error

/-- The state change each event performs: ticks update `syncProgress`,
`Set Point` moves to `ready`, the shutter captures without changing
state, realign returns to `aligning` (keeping the progress value), and a
camera failure sets the error flag. -/
def captureStep (s : CaptureState) : CaptureEvent → CaptureState
  | .tick r => { s with syncProgress := syncTick s.syncProgress r }
  | .setReady => { s with phase := .ready }
  | .captureFrame => s
  | .realign => { s with phase := .aligning }
  | .camError => { s with error := true }

/-- The states the capture flow can reach from its initial state through
enabled, valid events. -/
inductive CaptureReach : CaptureState → Prop where
  | init : CaptureReach initCaptureState
  | step : (s : CaptureState) → (e : CaptureEvent) → CaptureReach s →
      captureEventValid e = true → captureEnabled s e = true →
      CaptureReach (captureStep s e)

/-- In every reachable capture state, the `ready` phase implies the
readiness value already reached 100. -/
lemma captureReach_ready_progress (s : CaptureState) (hr : CaptureReach s) :
    s.phase = .ready → 100 ≤ s.syncProgress := by
  induction hr with
  | init => intro hp; cases hp
  | step s e _ _ hen ih =>
    cases e with
    | tick r =>
      intro hp
      simp only [captureStep] at hp ⊢
      simp only [captureEnabled, Bool.and_eq_true, decide_eq_true_eq] at hen
      rw [hp] at hen
      cases hen.1
    | setReady =>
      intro _
      simp only [captureEnabled, Bool.and_eq_true, decide_eq_true_eq] at hen
      exact hen.2
    | captureFrame => exact ih
    | realign => intro hp; cases hp
    | camError => exact ih

/-- C8 (confirmed).  The capture-alignment gate: the shutter is never
available while the phase is `aligning`; the `aligning → ready`
transition is enabled only once the readiness value is at least 100; in
every reachable state the `ready` phase implies readiness at least 100;
hence whenever frame capture is enabled in a reachable state, the
readiness value has reached 100. -/
theorem C8_alignment_gate :
    (∀ s : CaptureState, s.phase = .aligning →
        captureEnabled s .captureFrame = false) ∧
    (∀ s : CaptureState, captureEnabled s .setReady = true →
        100 ≤ s.syncProgress) ∧
    (∀ s : CaptureState, CaptureReach s → s.phase = .ready →
        100 ≤ s.syncProgress) ∧
    (∀ s : CaptureState, CaptureReach s →
        captureEnabled s .captureFrame = true → 100 ≤ s.syncProgress) := by
  refine ⟨?_, ?_, ?_, ?_⟩
  · intro s hp
    simp [captureEnabled, hp]
  · intro s hen
    simp only [captureEnabled, Bool.and_eq_true, decide_eq_true_eq] at hen
    exact hen.2
  · exact fun s hr => captureReach_ready_progress s hr
  · intro s hr hen
    simp only [captureEnabled, Bool.and_eq_true, decide_eq_true_eq] at hen
    exact captureReach_ready_progress s hr hen.1

/-- A reachable aligning state with readiness 109: six maximal ticks of
14, one tick of 11 and one more maximal tick overshoot 100
(95 < 100, so the last tick adds 14 rather than clamping). -/
lemma captureReach_109 : CaptureReach ⟨.aligning, 109, false⟩ := by
  have h0 : CaptureReach ⟨.aligning, 0, false⟩ := CaptureReach.init
  have h1 : CaptureReach ⟨.aligning, 14, false⟩ :=
    CaptureReach.step _ (.tick 14) h0 (by decide) (by decide)
  have h2 : CaptureReach ⟨.aligning, 28, false⟩ :=
    CaptureReach.step _ (.tick 14) h1 (by decide) (by decide)
  have h3 : CaptureReach ⟨.aligning, 42, false⟩ :=
    CaptureReach.step _ (.tick 14) h2 (by decide) (by decide)
  have h4 : CaptureReach ⟨.aligning, 56, false⟩ :=
    CaptureReach.step _ (.tick 14) h3 (by decide) (by decide)
  have h5 : CaptureReach ⟨.aligning, 70, false⟩ :=
    CaptureReach.step _ (.tick 14) h4 (by decide) (by decide)
  have h6 : CaptureReach ⟨.aligning, 84, false⟩ :=
    CaptureReach.step _ (.tick 14) h5 (by decide) (by decide)
  have h7 : CaptureReach ⟨.aligning, 95, false⟩ :=
    CaptureReach.step _ (.tick 11) h6 (by decide) (by decide)
  exact CaptureReach.step _ (.tick 14) h7 (by decide) (by decide)

/-- C8 (witness): the gate theorem applied to a concrete reachable
`ready` state (readiness 112 after eight maximal ticks, then
`Set Point`). -/
theorem C8_alignment_gate_witness :
    100 ≤ (CaptureState.mk .ready 112 false).syncProgress := by
  have h0 : CaptureReach ⟨.aligning, 0, false⟩ := CaptureReach.init
  have h1 : CaptureReach ⟨.aligning, 14, false⟩ :=
    CaptureReach.step _ (.tick 14) h0 (by decide) (by decide)
  have h2 : CaptureReach ⟨.aligning, 28, false⟩ :=
    CaptureReach.step _ (.tick 14) h1 (by decide) (by decide)
  have h3 : CaptureReach ⟨.aligning, 42, false⟩ :=
    CaptureReach.step _ (.tick 14) h2 (by decide) (by decide)
  have h4 : CaptureReach ⟨.aligning, 56, false⟩ :=
    CaptureReach.step _ (.tick 14) h3 (by decide) (by decide)
  have h5 : CaptureReach ⟨.aligning, 70, false⟩ :=
    CaptureReach.step _ (.tick 14) h4 (by decide) (by decide)
  have h6 : CaptureReach ⟨.aligning, 84, false⟩ :=
    CaptureReach.step _ (.tick 14) h5 (by decide) (by decide)
  have h7 : CaptureReach ⟨.aligning, 98, false⟩ :=
    CaptureReach.step _ (.tick 14) h6 (by decide) (by decide)
  have h8 : CaptureReach ⟨.aligning, 112, false⟩ :=
    CaptureReach.step _ (.tick 14) h7 (by decide) (by decide)
  have h9 : CaptureReach ⟨.ready, 112, false⟩ :=
    CaptureReach.step _ .setReady h8 (by decide) (by decide)
  exact C8_alignment_gate.2.2.1 _ h9 rfl

/-- C9 (counterexample).  The readiness value does not stop changing once
it has reached 100: the reachable value 109 (it overshoots 100, since a
tick from 95 adds up to 14) is at least 100, yet the next tick changes it
to exactly 100. -/
theorem C9_counterexample :
    CaptureReach ⟨.aligning, 109, false⟩ ∧ 100 ≤ 109 ∧
      syncTick 109 14 = 100 ∧ (109 : Nat) ≠ 100 :=
  ⟨captureReach_109, by decide, by decide, by decide⟩

/-- C9 (amended).  While below 100 the readiness value never decreases on
a tick; once it is at least 100, every subsequent tick yields exactly 100
(a value that overshot 100 is clamped back to 100 on the next tick and is
constant from then on). -/
theorem C9_sync_progress (v r : Nat) :
    (v < 100 → v ≤ syncTick v r) ∧ (100 ≤ v → syncTick v r = 100) := by
  constructor
  · intro hv
    simp only [syncTick, if_neg (by omega : ¬ 100 ≤ v)]
    omega
  · intro hv
    simp [syncTick, hv]

/-- C9 (witness): the amended theorem at readiness 50 (a tick of 7 does
not decrease it) and at readiness 120 (a tick clamps it to 100). -/
theorem C9_sync_progress_witness :
    50 ≤ syncTick 50 7 ∧ syncTick 120 3 = 100 :=
  ⟨(C9_sync_progress 50 7).1 (by decide), (C9_sync_progress 120 3).2 (by decide)⟩

/-! ## Voice session playback scheduling (`handleVoiceConsult.onmessage`,
`src/unnamed/part_002` lines 366-379) -/

/-- One inbound audio message, as seen by the playback scheduler: the
output context's clock value sampled in the handler (`ctx.currentTime`)
and the decoded buffer's duration.  Times are rationals, standing for the
real-valued audio clock. -/
structure AudioChunk where
  currentTime : ℚ
  duration : ℚ
deriving DecidableEq

/-- The scheduling step of the `onmessage` handler:
`nextStartTime = max(nextStartTime, ctx.currentTime)`, the chunk starts at
that value, and the next-start timestamp advances by the buffer's
duration.  Returns (start time, updated next-start timestamp). -/
def scheduleChunk (nextStart : ℚ) (c : AudioChunk) : ℚ × ℚ :=
  let start := max nextStart c.currentTime
  (start, start + c.duration)

/-- The (start, duration) pairs scheduled for a sequence of inbound audio
messages, handled in arrival order from a given next-start timestamp. -/
def runPlayback : ℚ → List AudioChunk → List (ℚ × ℚ)
  | _, [] => []
  | ns, c :: cs =>
    let p := scheduleChunk ns c
    (p.1, c.duration) :: runPlayback p.2 cs

/-- Every start scheduled from timestamp `ns` is at least `ns`, provided
durations are non-negative. -/
lemma runPlayback_start_ge (cs : List AudioChunk) :
    ∀ ns : ℚ, (∀ c ∈ cs, 0 ≤ c.duration) →
      ∀ p ∈ runPlayback ns cs, ns ≤ p.1 := by
  induction cs with
  | nil => intro ns _ p hp; simp [runPlayback] at hp
  | cons c cs ih =>
    intro ns hd p hp
    simp only [runPlayback, List.mem_cons] at hp
    rcases hp with rfl | hp
    · exact le_max_left _ _
    · have hdc : 0 ≤ c.duration := hd c (List.mem_cons_self c cs)
      have hns : ns ≤ max ns c.currentTime + c.duration :=
        le_add_of_le_of_nonneg (le_max_left _ _) hdc
      exact le_trans hns
        (ih _ (fun x hx => hd x (List.mem_cons_of_mem c hx)) p hp)

/-- C5 (confirmed).  For every sequence of inbound audio messages (with
the non-negative durations audio buffers always have) handled from any
next-start timestamp: each chunk starts no earlier than the clock value
sampled when it is scheduled and no earlier than the incoming next-start
timestamp (never a negative delay); consecutive scheduled chunks never
overlap — each starts no earlier than the end of the previous one; and
the next-start timestamp is monotonically non-decreasing across
messages. -/
theorem C5_playback_schedule (ns : ℚ) (cs : List AudioChunk)
    (hd : ∀ c ∈ cs, 0 ≤ c.duration) :
    List.Forall₂ (fun (p : ℚ × ℚ) (c : AudioChunk) =>
        c.currentTime ≤ p.1 ∧ ns ≤ p.1) (runPlayback ns cs) cs ∧
    List.Chain' (fun (p q : ℚ × ℚ) => p.1 + p.2 ≤ q.1) (runPlayback ns cs) ∧
    (∀ ns2 : ℚ, ∀ c : AudioChunk, 0 ≤ c.duration →
        ns2 ≤ (scheduleChunk ns2 c).2) := by
  refine ⟨?_, ?_, ?_⟩
  · induction cs generalizing ns with
    | nil => simp [runPlayback]
    | cons c cs ih =>
      have hd2 : ∀ x ∈ cs, 0 ≤ x.duration :=
        fun x hx => hd x (List.mem_cons_of_mem c hx)
      refine List.Forall₂.cons ⟨le_max_right _ _, le_max_left _ _⟩ ?_
      have hrec := ih ((scheduleChunk ns c).2) hd2
      refine hrec.imp ?_
      intro p x hx
      refine ⟨hx.1, ?_⟩
      have hns : ns ≤ (scheduleChunk ns c).2 := by
        have hdc : 0 ≤ c.duration := hd c (List.mem_cons_self c cs)
        exact le_add_of_le_of_nonneg (le_max_left _ _) hdc
      exact le_trans hns hx.2
  · induction cs generalizing ns with
    | nil => simp [runPlayback]
    | cons c cs ih =>
      have hd2 : ∀ x ∈ cs, 0 ≤ x.duration :=
        fun x hx => hd x (List.mem_cons_of_mem c hx)
      cases cs with
      | nil => simp [runPlayback]
      | cons c2 cs2 =>
        refine List.Chain'.cons ?_ (ih _ hd2)
        exact le_max_left _ _
  · intro ns2 c hdc
    exact le_add_of_le_of_nonneg (le_max_left _ _) hdc

/-- C5 (witness): the scheduling theorem at a concrete two-message
sequence (an early chunk of duration 1 and a chunk arriving at clock 1/2
of duration 2). -/
theorem C5_playback_schedule_witness :
    List.Chain' (fun (p q : ℚ × ℚ) => p.1 + p.2 ≤ q.1)
      (runPlayback 0 [⟨0, 1⟩, ⟨1/2, 2⟩]) :=
  (C5_playback_schedule 0 [⟨0, 1⟩, ⟨1/2, 2⟩] (by decide)).2.1

/-! ## Voice session lifecycle (`handleVoiceConsult` / `stopVoiceSession`,
`src/unnamed/part_002` lines 329-394) -/

/-- The voice-session resources and UI flags held by the app. -/
structure VoiceState where
  isVoiceConsultOpen : Bool
  isConnecting : Bool
  micStream : Bool
  inputAudioCtx : Bool
  outputAudioCtx : Bool
  pendingSources : Nat
  liveSession : Bool
deriving DecidableEq

/-- `stopVoiceSession` (`src/unnamed/part_002` lines 329-338): close the
live session, stop all microphone tracks, close both audio contexts, stop
and clear every pending playback source, and reset both UI flags. -/
def stopVoiceSession (_s : VoiceState) : VoiceState :=
  { isVoiceConsultOpen := false
    isConnecting := false
    micStream := false
    inputAudioCtx := false
    outputAudioCtx := false
    pendingSources := 0
    liveSession := false }

/-- Whether the connection attempt of `handleVoiceConsult` succeeds. -/
inductive ConnectOutcome where
  | ok
  | fail
deriving DecidableEq

/-- The observable effect of opening a live session
(`ai.live.connect`). -/
inductive VoiceEffect where
  | connectSession
deriving DecidableEq

/-- `handleVoiceConsult` (`src/unnamed/part_002` lines 340-394) as an
atomic transition: when a session is already open or connecting it only
calls `stopVoiceSession` (no connect attempt); otherwise it attempts to
connect, ending open on success and torn down (via the `catch`'s
`stopVoiceSession`) on failure. -/
def handleVoiceConsult (s : VoiceState) (out : ConnectOutcome) :
    VoiceState × List VoiceEffect :=
  if s.isVoiceConsultOpen || s.isConnecting then (stopVoiceSession s, [])
  else
    match out with
    | .ok =>
      ({ isVoiceConsultOpen := true
         isConnecting := false
         micStream := true
         inputAudioCtx := true
         outputAudioCtx := true
         pendingSources := s.pendingSources
         liveSession := true }, [.connectSession])
    | .fail => (stopVoiceSession s, [.connectSession])

/-- C6 (confirmed).  Invoking the voice-consult open action while a
session is already open or connecting closes the existing session instead
of opening a second one: the step is exactly `stopVoiceSession` — the
microphone is stopped, both audio contexts are closed, all pending
playback sources are stopped and cleared, the live session is closed and
both UI flags are reset — and no connect effect is emitted. -/
theorem C6_voice_toggle (s : VoiceState) (out : ConnectOutcome)
    (h : s.isVoiceConsultOpen = true ∨ s.isConnecting = true) :
    handleVoiceConsult s out = (stopVoiceSession s, []) ∧
      (stopVoiceSession s).isVoiceConsultOpen = false ∧
      (stopVoiceSession s).isConnecting = false ∧
      (stopVoiceSession s).micStream = false ∧
      (stopVoiceSession s).inputAudioCtx = false ∧
      (stopVoiceSession s).outputAudioCtx = false ∧
      (stopVoiceSession s).pendingSources = 0 ∧
      (stopVoiceSession s).liveSession = false ∧
      VoiceEffect.connectSession ∉ (handleVoiceConsult s out).2 := by
  have hb : (s.isVoiceConsultOpen || s.isConnecting) = true := by
    rcases h with h | h <;> simp [h]
  refine ⟨?_, rfl, rfl, rfl, rfl, rfl, rfl, rfl, ?_⟩
  · simp [handleVoiceConsult, hb]
  · simp [handleVoiceConsult, hb]

/-- C6 (witness): the toggle theorem at a concrete open session holding
live resources and three pending playback sources. -/
theorem C6_voice_toggle_witness :
    handleVoiceConsult ⟨true, false, true, true, true, 3, true⟩ ConnectOutcome.ok
      = (stopVoiceSession ⟨true, false, true, true, true, 3, true⟩, []) :=
  (C6_voice_toggle ⟨true, false, true, true, true, 3, true⟩ ConnectOutcome.ok
    (Or.inl rfl)).1

/-! ## Pipeline orchestrator (`startDiscovery` / `startSynthesis`,
`src/unnamed/part_002` lines 396-425; data model from `src/types.ts`) -/

/-- `ProjectType` (`src/types.ts`). -/
inductive ProjectType where
  | residential
  | commercial
  | mixedUse
  | villa
deriving DecidableEq

/-- `ArchitecturalStyle` (`src/types.ts`). -/
inductive ArchitecturalStyle where
  | modern
  | minimalist
  | luxury
  | traditional
  | ecoFriendly
  | industrial
deriving DecidableEq

/-- The three ordered budget tiers (`src/types.ts`). -/
inductive BudgetRange where
  | low
  | medium
  | high
deriving DecidableEq

/-- `DesignPreferences` (`src/types.ts`). -/
structure DesignPreferences where
  type : ProjectType
  style : ArchitecturalStyle
  floors : Nat
  budgetRange : BudgetRange
  materials : List String
deriving DecidableEq

/-- A grounding citation (title and URI) of a discovery result. -/
structure Reference where
  title : String
  uri : String
deriving DecidableEq

/-- The discovery result `analyzeSite` resolves with
(`src/gemini.ts` lines 59-62). -/
structure SiteDiscovery where
  analysis : String
  references : List Reference
deriving DecidableEq

/-- A room of a floor plan (`src/types.ts`). -/
structure Room where
  name : String
  size : String
  description : String
deriving DecidableEq

/-- A cost line item (`src/types.ts`). -/
structure CostItem where
  item : String
  cost : Int
deriving DecidableEq

/-- A design's cost data (`src/types.ts`). -/
structure Costs where
  estimatedTotal : Int
  breakdown : List CostItem
deriving DecidableEq

/-- A design's floor plan (`src/types.ts`). -/
structure FloorPlan where
  rooms : List Room
  totalArea : String
  analysis : String
deriving DecidableEq

/-- A saved design version (`src/types.ts`). -/
structure DesignVersion where
  id : String
  name : String
  timestamp : String
  visualizations : Visualizations
  preferences : DesignPreferences
deriving DecidableEq

/-- `ArchitecturalDesign` (`src/types.ts`). -/
structure ArchitecturalDesign where
  id : String
  name : String
  description : String
  siteAnalysis : String
  preferences : DesignPreferences
  floorPlanJson : FloorPlan
  visualizations : Visualizations
  costs : Costs
  versions : List DesignVersion
  createdAt : String
deriving DecidableEq

/-- The top-level view modes of the app component. -/
inductive ViewMode where
  | landing
  | dashboard
  | wizard
  | detail
  | inspiration
deriving DecidableEq

/-- The app component state driving the three-stage pipeline. -/
structure AppState where
  viewMode : ViewMode
  step : Nat
  uploadedImage : Option String
  siteDiscovery : Option SiteDiscovery
  preferences : DesignPreferences
  isGenerating : Bool
  generatedDesign : Option ArchitecturalDesign
  currentCostData : Option Costs
  projects : List ArchitecturalDesign
deriving DecidableEq

/-- The default preferences the session starts with
(`src/unnamed/part_002` lines 263-269). -/
def initPreferences : DesignPreferences :=
  { type := .residential
    style := .modern
    floors := 2
    budgetRange := .medium
    materials := ["Glass", "Concrete", "Timber"] }

/-- The initial app state (`src/unnamed/part_002` lines 257-275). -/
def initAppState : AppState :=
  { viewMode := .landing
    step := 0
    uploadedImage := none
    siteDiscovery := none
    preferences := initPreferences
    isGenerating := false
    generatedDesign := none
    currentCostData := none
    projects := [] }

/-- JavaScript truthiness of a nullable string (`!uploadedImage` is true
exactly when the value is `null` or the empty string). -/
def strOptTruthy : Option String → Bool
  | none => false
  | some s => s != ""

/-- The outcome of the awaited `analyzeSite` call. -/
inductive DiscoveryOutcome where
  | ok (d : SiteDiscovery)
  | fail
deriving DecidableEq

/-- The outcome of the awaited `generateDesignConcept` call. -/
inductive SynthesisOutcome where
  | ok (des : ArchitecturalDesign)
  | fail
deriving DecidableEq

/-- The pipeline events: running `startDiscovery` on a captured or
uploaded image, and pressing `Start Simulation` (`startSynthesis`).  Each
carries the outcome of its awaited AI call. -/
inductive AppEvent where
  | startDiscovery (img : String) (out : DiscoveryOutcome)
  | startSynthesis (out : SynthesisOutcome)
deriving DecidableEq

/-- The network calls the pipeline can issue to the AI service. -/
inductive AIEffect where
  | analyzeSiteCall (img : String)
  | generateDesignConceptCall (img : String) (prefs : DesignPreferences)
      (d : SiteDiscovery)
deriving DecidableEq

/-- One pipeline handler run as an atomic transition
(`src/unnamed/part_002` lines 396-425), returning the new state and the
AI calls issued.  `startDiscovery` stores the image, enters the wizard at
step 0, invokes site analysis, and only on success stores the discovery
and advances to step 1 (on failure the error is logged and the previous
`siteDiscovery`, if any, is kept).  `startSynthesis` returns immediately,
with no state change and no AI call, when the captured image or the
stored discovery is falsy; otherwise it moves to step 2, invokes concept
synthesis with the current preferences and discovery, and on success
stores the design, prepends it to the project list, records its costs and
switches to the detail view. -/
def appStep (s : AppState) (e : AppEvent) : AppState × List AIEffect :=
  match e with
  | .startDiscovery img out =>
    let s1 := { s with uploadedImage := some img, viewMode := .wizard,
                       step := 0, isGenerating := false }
    match out with
    | .ok d => ({ s1 with siteDiscovery := some d, step := 1 },
        [.analyzeSiteCall img])
    | .fail => (s1, [.analyzeSiteCall img])
  | .startSynthesis out =>
    match s.uploadedImage with
    | none => (s, [])
    | some img =>
      match s.siteDiscovery with
      | none => (s, [])
      | some d =>
        if img = "" then (s, [])
        else
          let s1 := { s with step := 2, isGenerating := false }
          match out with
          | .ok des =>
            ({ s1 with generatedDesign := some des,
                       projects := des :: s1.projects,
                       currentCostData := some des.costs,
                       viewMode := .detail },
             [.generateDesignConceptCall img s.preferences d])
          | .fail => (s1, [.generateDesignConceptCall img s.preferences d])

/-- A run of the pipeline from a state through a list of events,
accumulating the AI calls issued. -/
def runApp : AppState → List AppEvent → AppState × List AIEffect
  | s, [] => (s, [])
  | s, e :: es =>
    let r1 := appStep s e
    let r2 := runApp r1.1 es
    (r2.1, r1.2 ++ r2.2)

/-- A single step either leaves `siteDiscovery` unchanged or is a
successful discovery event that stores exactly its result. -/
lemma appStep_siteDiscovery (s : AppState) (e : AppEvent) :
    (appStep s e).1.siteDiscovery = s.siteDiscovery ∨
      ∃ img d, e = .startDiscovery img (.ok d) ∧
        (appStep s e).1.siteDiscovery = some d := by
  cases e with
  | startDiscovery img out =>
    cases out with
    | ok d => exact Or.inr ⟨img, d, rfl, rfl⟩
    | fail => exact Or.inl rfl
  | startSynthesis out =>
    left
    obtain ⟨vm, st, ui, sd, pf, ig, gd, cd, pj⟩ := s
    cases ui with
    | none => rfl
    | some img =>
      cases sd with
      | none => rfl
      | some d =>
        by_cases hi : img = ""
        · simp [appStep, hi]
        · cases out <;> simp [appStep, hi]

/-- Every synthesis call a single step issues carries the discovery
stored in the pre-state. -/
lemma appStep_synth_call (s : AppState) (e : AppEvent) (img : String)
    (prefs : DesignPreferences) (d : SiteDiscovery)
    (hmem : AIEffect.generateDesignConceptCall img prefs d ∈ (appStep s e).2) :
    s.siteDiscovery = some d := by
  cases e with
  | startDiscovery img2 out =>
    exfalso
    cases out <;> simp [appStep] at hmem
  | startSynthesis out =>
    obtain ⟨vm, st, ui, sd, pf, ig, gd, cd, pj⟩ := s
    cases ui with
    | none => simp [appStep] at hmem
    | some img2 =>
      cases sd with
      | none => simp [appStep] at hmem
      | some d2 =>
        by_cases hi : img2 = ""
        · simp [appStep, hi] at hmem
        · cases out <;>
            · simp only [appStep, if_neg hi, List.mem_singleton] at hmem
              cases hmem
              rfl

/-- Every synthesis call issued along a run is grounded: its discovery
was either already stored at the start of the run or produced by a
successful discovery event of the run. -/
lemma runApp_synth_provenance (evs : List AppEvent) :
    ∀ s : AppState, ∀ img : String, ∀ prefs : DesignPreferences,
      ∀ d : SiteDiscovery,
      AIEffect.generateDesignConceptCall img prefs d ∈ (runApp s evs).2 →
        s.siteDiscovery = some d ∨
          ∃ img2, AppEvent.startDiscovery img2 (.ok d) ∈ evs := by
  induction evs with
  | nil => intro s img prefs d hmem; simp [runApp] at hmem
  | cons e es ih =>
    intro s img prefs d hmem
    simp only [runApp, List.mem_append] at hmem
    rcases hmem with hmem | hmem
    · exact Or.inl (appStep_synth_call s e img prefs d hmem)
    · rcases ih (appStep s e).1 img prefs d hmem with hstep | ⟨img2, hin⟩
      · rcases appStep_siteDiscovery s e with heq | ⟨img3, d3, rfl, heq⟩
        · exact Or.inl (heq ▸ hstep)
        · rw [heq] at hstep
          cases hstep
          exact Or.inr ⟨img3, List.mem_cons_self _ _⟩
      · exact Or.inr ⟨img2, List.mem_cons_of_mem e hin⟩

/-- C4 (confirmed).  The orchestrator never enters synthesis without a
stored discovery: `startSynthesis` returns with no state change and no AI
call whenever the captured image or the stored `SiteDiscovery` is falsy;
and in any run from the initial state, every concept-synthesis call
carries a `SiteDiscovery` that was stored by an earlier successful
`analyzeSite` of the run (the initial state stores none). -/
theorem C4_synthesis_needs_discovery :
    (∀ (s : AppState) (out : SynthesisOutcome),
        strOptTruthy s.uploadedImage = false ∨ s.siteDiscovery = none →
          appStep s (.startSynthesis out) = (s, [])) ∧
    (∀ (evs : List AppEvent) (img : String) (prefs : DesignPreferences)
        (d : SiteDiscovery),
        AIEffect.generateDesignConceptCall img prefs d ∈ (runApp initAppState evs).2 →
          ∃ img2, AppEvent.startDiscovery img2 (.ok d) ∈ evs) := by
  constructor
  · intro s out h
    obtain ⟨vm, st, ui, sd, pf, ig, gd, cd, pj⟩ := s
    cases ui with
    | none => rfl
    | some img =>
      cases sd with
      | none => rfl
      | some d =>
        have himg : img = "" := by
          rcases h with h | h
          · simpa [strOptTruthy] using h
          · cases h
        simp [appStep, himg]
  · intro evs img prefs d hmem
    rcases runApp_synth_provenance evs initAppState img prefs d hmem with h | h
    · cases h
    · exact h

/-- C4 (witness): the first part at a state with no stored discovery, and
the second part on the concrete run "successful discovery, then
synthesis", whose synthesis call is grounded in that discovery event. -/
theorem C4_synthesis_needs_discovery_witness :
    appStep { initAppState with uploadedImage := some "img" }
        (.startSynthesis .fail)
      = ({ initAppState with uploadedImage := some "img" }, []) ∧
    (∃ img2,
      AppEvent.startDiscovery img2 (.ok ⟨"soil", []⟩) ∈
        [AppEvent.startDiscovery "img" (.ok ⟨"soil", []⟩),
         AppEvent.startSynthesis .fail]) :=
  ⟨(C4_synthesis_needs_discovery.1 _ .fail (Or.inr rfl)),
   C4_synthesis_needs_discovery.2
     [AppEvent.startDiscovery "img" (.ok ⟨"soil", []⟩),
      AppEvent.startSynthesis .fail]
     "img" initPreferences ⟨"soil", []⟩ (by decide)⟩

/-! ## PCM base64 codec (`encode` / `decode`, `src/unnamed/part_002`
lines 46-63)

`encode` turns a byte array into the binary string of its char codes and
applies `btoa`; `decode` applies `atob` and reads the char codes back.
Bytes are modelled as `Nat`s below 256 and the base64 text as a character
list; `btoa` is modelled by `btoaChunks` (standard base64 with `=`
padding) and `atob` by `atobChunks` (forgiving base64: a final chunk may
be padded or left unpadded, `=` anywhere else or a dangling single
character is rejected). -/

/-- The 64-character base64 alphabet. -/
def base64Alphabet : List Char :=
  ['A', 'B', 'C', 'D', 'E', 'F', 'G', 'H', 'I', 'J', 'K', 'L', 'M',
   'N', 'O', 'P', 'Q', 'R', 'S', 'T', 'U', 'V', 'W', 'X', 'Y', 'Z',
   'a', 'b', 'c', 'd', 'e', 'f', 'g', 'h', 'i', 'j', 'k', 'l', 'm',
   'n', 'o', 'p', 'q', 'r', 's', 't', 'u', 'v', 'w', 'x', 'y', 'z',
   '0', '1', '2', '3', '4', '5', '6', '7', '8', '9', '+', '/']

/-- The alphabet character of a 6-bit group. -/
def sixToChar (n : Nat) : Char :=
  base64Alphabet.getD n 'A'

/-- The 6-bit group of an alphabet character (`none` for any character
outside the alphabet, in particular `=`). -/
def charToSix (c : Char) : Option Nat :=
  base64Alphabet.findIdx? (fun x => x == c)

/-- `btoa` on a byte list: three bytes become four alphabet characters;
a trailing byte or byte pair becomes a padded final chunk. -/
def btoaChunks : List Nat → List Char
  | [] => []
  | [b1] => [sixToChar (b1 / 4), sixToChar (b1 % 4 * 16), '=', '=']
  | [b1, b2] =>
    [sixToChar (b1 / 4), sixToChar (b1 % 4 * 16 + b2 / 16),
     sixToChar (b2 % 16 * 4), '=']
  | b1 :: b2 :: b3 :: rest =>
    sixToChar (b1 / 4) :: sixToChar (b1 % 4 * 16 + b2 / 16) ::
      sixToChar (b2 % 16 * 4 + b3 / 64) :: sixToChar (b3 % 64) ::
      btoaChunks rest

/-- Decode a two-character final chunk into one byte. -/
def atobDec1 (c1 c2 : Char) : Option (List Nat) :=
  match charToSix c1, charToSix c2 with
  | some s1, some s2 => some [s1 * 4 + s2 / 16]
  | _, _ => none

/-- Decode a three-character final chunk into two bytes. -/
def atobDec2 (c1 c2 c3 : Char) : Option (List Nat) :=
  match charToSix c1, charToSix c2, charToSix c3 with
  | some s1, some s2, some s3 =>
    some [s1 * 4 + s2 / 16, s2 % 16 * 16 + s3 / 4]
  | _, _, _ => none

/-- Decode a full four-character chunk into three bytes. -/
def atobDec3 (c1 c2 c3 c4 : Char) : Option (List Nat) :=
  match charToSix c1, charToSix c2, charToSix c3, charToSix c4 with
  | some s1, some s2, some s3, some s4 =>
    some [s1 * 4 + s2 / 16, s2 % 16 * 16 + s3 / 4, s3 % 4 * 64 + s4]
  | _, _, _, _ => none

/-- `atob` (forgiving base64) on a whitespace-free character list:
full chunks of four alphabet characters, a final chunk of two or three
characters (optionally completed with `=` padding to length four), and
rejection of anything else. -/
def atobChunks : List Char → Option (List Nat)
  | [] => some []
  | [_] => none
  | [c1, c2] => atobDec1 c1 c2
  | [c1, c2, c3] => atobDec2 c1 c2 c3
  | c1 :: c2 :: c3 :: c4 :: rest =>
    if rest.isEmpty then
      if (c3 == '=') && (c4 == '=') then atobDec1 c1 c2
      else if c4 == '=' then atobDec2 c1 c2 c3
      else atobDec3 c1 c2 c3 c4
    else
      match atobDec3 c1 c2 c3 c4, atobChunks rest with
      | some bs, some more => some (bs ++ more)
      | _, _ => none

/-- `encode` (`src/unnamed/part_002` lines 46-53): the base64 text of a
byte array's binary string. -/
def encode (bytes : List Nat) : List Char :=
  btoaChunks bytes

/-- `decode` (`src/unnamed/part_002` lines 55-63): the char codes of the
`atob` of a base64 text (`none` models the exception `atob` throws on
invalid input). -/
def decode (chars : List Char) : Option (List Nat) :=
  atobChunks chars

/-- Decoding inverts encoding on each 6-bit group. -/
lemma charToSix_sixToChar : ∀ n, n < 64 → charToSix (sixToChar n) = some n := by
  decide

/-- No 6-bit group is encoded as the padding character. -/
lemma sixToChar_ne_pad : ∀ n, n < 64 → (sixToChar n == '=') = false := by
  decide

/-- The base64 text of a non-empty byte list is non-empty. -/
lemma btoaChunks_ne_nil (bytes : List Nat) (h : bytes ≠ []) :
    btoaChunks bytes ≠ [] := by
  match bytes with
  | [] => exact absurd rfl h
  | [b1] => simp [btoaChunks]
  | [b1, b2] => simp [btoaChunks]
  | b1 :: b2 :: b3 :: rest => simp [btoaChunks]

/-- `atob` inverts `btoa` on every byte list. -/
lemma atobChunks_btoaChunks (bytes : List Nat) :
    (∀ b ∈ bytes, b < 256) → atobChunks (btoaChunks bytes) = some bytes := by
  induction bytes using btoaChunks.induct with
  | case1 => intro _; rfl
  | case2 b1 =>
    intro h
    have hb1 : b1 < 256 := h b1 (by simp)
    have h1 : charToSix (sixToChar (b1 / 4)) = some (b1 / 4) :=
      charToSix_sixToChar _ (by omega)
    have h2 : charToSix (sixToChar (b1 % 4 * 16)) = some (b1 % 4 * 16) :=
      charToSix_sixToChar _ (by omega)
    simp only [btoaChunks, atobChunks, List.isEmpty_nil, if_true,
      beq_self_eq_true, Bool.and_self, if_pos, atobDec1, h1, h2]
    have : b1 / 4 * 4 + b1 % 4 * 16 / 16 = b1 := by omega
    rw [this]
  | case3 b1 b2 =>
    intro h
    have hb1 : b1 < 256 := h b1 (by simp)
    have hb2 : b2 < 256 := h b2 (by simp)
    have h1 : charToSix (sixToChar (b1 / 4)) = some (b1 / 4) :=
      charToSix_sixToChar _ (by omega)
    have h2 : charToSix (sixToChar (b1 % 4 * 16 + b2 / 16))
        = some (b1 % 4 * 16 + b2 / 16) :=
      charToSix_sixToChar _ (by omega)
    have h3 : charToSix (sixToChar (b2 % 16 * 4)) = some (b2 % 16 * 4) :=
      charToSix_sixToChar _ (by omega)
    have hp3 : (sixToChar (b2 % 16 * 4) == '=') = false :=
      sixToChar_ne_pad _ (by omega)
    simp only [btoaChunks, atobChunks, List.isEmpty_nil, if_true, hp3,
      Bool.false_and, Bool.if_false_left, beq_self_eq_true, Bool.and_true,
      Bool.not_false, if_pos, atobDec2, h1, h2, h3]
    have e1 : b1 / 4 * 4 + (b1 % 4 * 16 + b2 / 16) / 16 = b1 := by omega
    have e2 : (b1 % 4 * 16 + b2 / 16) % 16 * 16 + b2 % 16 * 4 / 4 = b2 := by
      omega
    rw [e1, e2]
    simp
  | case4 b1 b2 b3 rest ih =>
    intro h
    have hb1 : b1 < 256 := h b1 (by simp)
    have hb2 : b2 < 256 := h b2 (by simp)
    have hb3 : b3 < 256 := h b3 (by simp)
    have h1 : charToSix (sixToChar (b1 / 4)) = some (b1 / 4) :=
      charToSix_sixToChar _ (by omega)
    have h2 : charToSix (sixToChar (b1 % 4 * 16 + b2 / 16))
        = some (b1 % 4 * 16 + b2 / 16) :=
      charToSix_sixToChar _ (by omega)
    have h3 : charToSix (sixToChar (b2 % 16 * 4 + b3 / 64))
        = some (b2 % 16 * 4 + b3 / 64) :=
      charToSix_sixToChar _ (by omega)
    have h4 : charToSix (sixToChar (b3 % 64)) = some (b3 % 64) :=
      charToSix_sixToChar _ (by omega)
    have hp3 : (sixToChar (b2 % 16 * 4 + b3 / 64) == '=') = false :=
      sixToChar_ne_pad _ (by omega)
    have hp4 : (sixToChar (b3 % 64) == '=') = false :=
      sixToChar_ne_pad _ (by omega)
    have e1 : b1 / 4 * 4 + (b1 % 4 * 16 + b2 / 16) / 16 = b1 := by omega
    have e2 : (b1 % 4 * 16 + b2 / 16) % 16 * 16 + (b2 % 16 * 4 + b3 / 64) / 4
        = b2 := by omega
    have e3 : (b2 % 16 * 4 + b3 / 64) % 4 * 64 + b3 % 64 = b3 := by omega
    cases hrest : rest with
    | nil =>
      simp only [btoaChunks, atobChunks, List.isEmpty_nil, if_true, hp3, hp4,
        Bool.false_and, Bool.if_false_left, Bool.not_false, Bool.and_true,
        if_false, atobDec3, h1, h2, h3, h4, e1, e2, e3]
      simp
    | cons r rs =>
      have hne : btoaChunks rest ≠ [] := by
        rw [hrest]; exact btoaChunks_ne_nil _ (by simp)
      have hemp : (btoaChunks rest).isEmpty = false := by
        rw [List.isEmpty_eq_false_iff_exists_mem]
        rcases List.exists_mem_of_ne_nil _ hne with ⟨x, hx⟩
        exact ⟨x, hx⟩
      have hrest256 : ∀ b ∈ rest, b < 256 := by
        intro b hb
        exact h b (List.mem_cons_of_mem _ (List.mem_cons_of_mem _
          (List.mem_cons_of_mem _ hb)))
      have hih : atobChunks (btoaChunks rest) = some rest := ih hrest256
      rw [hrest] at hemp hih
      simp only [btoaChunks, atobChunks, hemp, if_false, Bool.false_eq_true,
        atobDec3, h1, h2, h3, h4, hih, e1, e2, e3]
      rfl

/-- C10 (confirmed).  The voice session's base64 PCM codec round-trips:
for every byte array, `decode(encode(bytes))` succeeds and returns the
original bytes. -/
theorem C10_base64_roundtrip (bytes : List Nat) (h : ∀ b ∈ bytes, b < 256) :
    decode (encode bytes) = some bytes :=
  atobChunks_btoaChunks bytes h

/-- C10 (witness): the round-trip theorem on a concrete five-byte PCM
fragment exercising both a full chunk and a padded final chunk. -/
theorem C10_base64_roundtrip_witness :
    decode (encode [72, 101, 255, 0, 129]) = some [72, 101, 255, 0, 129] :=
  C10_base64_roundtrip [72, 101, 255, 0, 129] (by decide)

end ImagineBuild
